import Mathlib

/-!
Verification of the `roc_std` managed-box core (`src/crates/roc_std/src/roc_box.rs`):
a reference-counted single-value heap box (`RocBox<T>`) and its thread-transfer
wrapper (`SendSafeRocBox<T>`).

The embedding is a shallow one over an explicit heap: an allocation is a record
holding its storage cell, its payload value, a liveness flag, and two event
counters (how many times the payload destructor has run, and how many times the
allocation has been released).  A `RocBox` handle is the address of the payload
it points at, and every operation of the source is a function from heap to heap.
Pointer arithmetic (alignment, header offset) is modelled separately as pure
arithmetic over abstract sizes and alignments, mirroring the source expressions.
-/

/-- Modelled from the spec: the repository's `Storage` type lives in
`crates/roc_std/src/storage.rs`, which is not among the provided source files
(only its caller `roc_box.rs` is).  Spec §4.1 describes it: the mode is either
`ReadOnly` or `Counted(count ≥ 1)`; `new_reference_counted()` yields
`Counted(1)`; `is_readonly()` and `is_unique()` (true iff `Counted(1)`) are
queries; `increment()` increases a `Counted` count by 1; `decrease()` decrements
and returns whether the caller must now deallocate (true iff the decrement
brought `Counted` to 0); decrementing a `ReadOnly` cell is a no-op that never
signals deallocation. -/
inductive Storage : Type where
  | readonly : Storage
  | counted : Nat → Storage
deriving DecidableEq, Repr

namespace Storage

def new_reference_counted : Storage := .counted 1

def is_readonly : Storage → Bool
  | .readonly => true
  | .counted _ => false

def is_unique : Storage → Bool
  | .readonly => false
  | .counted n => n == 1

def increment_reference_count : Storage → Storage
  | .readonly => .readonly
  | .counted n => .counted (n + 1)

/-- Decrement, returning the updated cell and whether the caller must
deallocate (true iff the decrement brought a `Counted` count to 0). -/
def decrease : Storage → Storage × Bool
  | .readonly => (.readonly, false)
  | .counted n => (.counted (n - 1), n - 1 == 0)

end Storage

/-- One heap allocation: its storage cell, its payload value, whether it is
still allocated (`live`), and two event counters recording how many times the
payload destructor has run and how many times the allocation has been
released. -/
structure Allocation (α : Type) where
  storage : Storage
  payload : α
  live : Bool
  destructorRuns : Nat
  deallocs : Nat
deriving DecidableEq, Repr

/-- The heap: allocations indexed by address.  Addresses are list indices and
are never reused; releasing an allocation clears its `live` flag. -/
abbrev Heap (α : Type) : Type := List (Allocation α)

/-- A `RocBox<T>` handle: `contents` is the address of the payload it points
at (`pub struct RocBox<T> { contents: NonNull<T> }`). -/
structure RocBox where
  contents : Nat
deriving DecidableEq, Repr

namespace RocBox

variable {α : Type}

/-- `RocBox::new`: allocate a fresh cell-plus-payload allocation, write a
`Counted(1)` storage cell and the payload value, return a handle to it.  The
fresh address is the next unused index. -/
def new (h : Heap α) (v : α) : RocBox × Heap α :=
  (⟨h.length⟩, h ++ [⟨Storage.new_reference_counted, v, true, 0, 0⟩])

/-- `Deref::deref`: read the payload the handle points at. -/
def deref (h : Heap α) (b : RocBox) : Option α :=
  (h[b.contents]?).map (·.payload)

/-- `Clone::clone` for `RocBox`: read the storage cell; if it is not
read-only, increment the reference count and write it back; return a handle
with the same `contents` address. -/
def clone (h : Heap α) (b : RocBox) : RocBox × Heap α :=
  match h[b.contents]? with
  | none => (⟨b.contents⟩, h)
  | some cell =>
    if cell.storage.is_readonly then
      (⟨b.contents⟩, h)
    else
      (⟨b.contents⟩,
       h.set b.contents { cell with storage := cell.storage.increment_reference_count })

/-- `Drop::drop` for `RocBox`: read the cell and `decrease` it.  If the
decrement signals last-owner, run the payload destructor and release the
allocation (the decremented cell is not written back: the memory is gone).
Otherwise write the decremented cell back unless it is read-only. -/
def drop (h : Heap α) (b : RocBox) : Heap α :=
  match h[b.contents]? with
  | none => h
  | some cell =>
    let r := cell.storage.decrease
    if r.2 then
      h.set b.contents
        { cell with live := false,
                    destructorRuns := cell.destructorRuns + 1,
                    deallocs := cell.deallocs + 1 }
    else if !r.1.is_readonly then
      h.set b.contents { cell with storage := r.1 }
    else
      h

/-- `RocBox::into_inner(self)`: `ptr::read` the payload out.  In the source,
`self` is moved into the function and never forgotten, so Rust drop glue runs
`Drop::drop` on the handle after the payload has been read; the model includes
that drop. -/
def into_inner (h : Heap α) (b : RocBox) : Option α × Heap α :=
  ((h[b.contents]?).map (·.payload), drop h b)

/-- `RocBox::deep_copy`: read the payload by value and build a brand-new box
over it with `new`. -/
def deep_copy (h : Heap α) (b : RocBox) : RocBox × Heap α :=
  match h[b.contents]? with
  | none => (b, h)
  | some cell => new h cell.payload

end RocBox

/-- `SendSafeRocBox<T>`: a single-field wrapper around a `RocBox`
(`pub struct SendSafeRocBox<T>(RocBox<T>);`). -/
structure SendSafeRocBox where
  box : RocBox
deriving DecidableEq, Repr

namespace SendSafeRocBox

variable {α : Type}

/-- `Clone::clone` for `SendSafeRocBox`: read the cell; if it is read-only,
clone the inner box (a pure address copy on a read-only cell); otherwise
`deep_copy` it.  `self` is borrowed, so no handle is dropped. -/
def clone (h : Heap α) (s : SendSafeRocBox) : SendSafeRocBox × Heap α :=
  match h[s.box.contents]? with
  | none => (s, h)
  | some cell =>
    if cell.storage.is_readonly then
      let r := RocBox.clone h s.box
      (⟨r.1⟩, r.2)
    else
      let r := RocBox.deep_copy h s.box
      (⟨r.1⟩, r.2)

end SendSafeRocBox

/-- `impl From<RocBox<T>> for SendSafeRocBox<T>`: if the cell is read-only or
unique, wrap the moved-in handle unchanged.  Otherwise `deep_copy` into a fresh
allocation and wrap that; the moved-in handle `b` then goes out of scope at the
end of the function and Rust drop glue runs `Drop::drop` on it. -/
def sendSafeRocBoxFromRocBox {α : Type} (h : Heap α) (b : RocBox) :
    SendSafeRocBox × Heap α :=
  match h[b.contents]? with
  | none => (⟨b⟩, h)
  | some cell =>
    if cell.storage.is_readonly || cell.storage.is_unique then
      (⟨b⟩, h)
    else
      let r := RocBox.deep_copy h b
      (⟨r.1⟩, RocBox.drop r.2 b)

/-- `impl From<SendSafeRocBox<T>> for RocBox<T>`: unwrap the inner handle
(`ssb.0`); the field is moved out, so no drop glue runs and the heap is
untouched. -/
def rocBoxFromSendSafe {α : Type} (h : Heap α) (s : SendSafeRocBox) :
    RocBox × Heap α :=
  (s.box, h)

/-!
Layout arithmetic, mirroring the pointer expressions of the source over
abstract sizes and alignments (all in bytes): `alignT` is `align_of::<T>()`,
`alignStorage` is `align_of::<Storage>()`, `sizeT` is `size_of::<T>()`.
-/

/-- `RocBox::alloc_alignment`: `align_of::<T>().max(align_of::<Storage>())`. -/
def alloc_alignment (alignT alignStorage : Nat) : Nat :=
  max alignT alignStorage

/-- The byte count `RocBox::new` requests from the allocator:
`size_of::<T>() + alignment`. -/
def allocBytes (sizeT alignT alignStorage : Nat) : Nat :=
  sizeT + alloc_alignment alignT alignStorage

/-- The payload address `RocBox::new` computes:
`ptr.cast::<u8>().add(alignment)`. -/
def contentsAddr (base alignT alignStorage : Nat) : Nat :=
  base + alloc_alignment alignT alignStorage

/-- The cell address `RocBox::storage` computes:
`contents.cast::<u8>().sub(alignment)`. -/
def storageAddr (contents alignT alignStorage : Nat) : Nat :=
  contents - alloc_alignment alignT alignStorage

/-- The base address `Drop::drop` passes to `roc_dealloc`:
`contents.as_ptr().cast::<u8>().sub(alignment)`. -/
def deallocAddr (contents alignT alignStorage : Nat) : Nat :=
  contents - alloc_alignment alignT alignStorage

/-- Address-level model of `RocBox::new`: given the address the allocator
returned (`none` = null), either fail fatally (`none`: the source hits the
fatal-panic path) or return the allocation base, the cell written at the header
offset, and the payload address. -/
def newLayout (alignT alignStorage : Nat) (allocRet : Option Nat) :
    Option (Nat × Storage × Nat) :=
  match allocRet with
  | none => none
  | some base =>
    some (base, Storage.new_reference_counted, base + alloc_alignment alignT alignStorage)

/-- Iterated cloning: apply `RocBox::clone` to the handle `b` a given number
of times, keeping only the heap (each clone returns a handle at the same
address as `b`). -/
def cloneN {α : Type} (h : Heap α) (b : RocBox) : Nat → Heap α
  | 0 => h
  | n + 1 => cloneN (RocBox.clone h b).2 b n

/-- Iterated dropping: apply `Drop::drop` to the handle `b` a given number of
times. -/
def dropN {α : Type} (h : Heap α) (b : RocBox) : Nat → Heap α
  | 0 => h
  | n + 1 => dropN (RocBox.drop h b) b n

/-- One step of an arbitrary interleaving of clone and drop operations on a
single box handle. -/
inductive BoxOp : Type where
  | cloneOp : BoxOp
  | dropOp : BoxOp
deriving DecidableEq, Repr

/-- Run an arbitrary clone/drop sequence against the handle `b`, keeping only
the heap. -/
def applyOps {α : Type} (h : Heap α) (b : RocBox) : List BoxOp → Heap α
  | [] => h
  | BoxOp.cloneOp :: rest => applyOps (RocBox.clone h b).2 b rest
  | BoxOp.dropOp :: rest => applyOps (RocBox.drop h b) b rest

/-- A singleton heap holding one unique (count 1), non-read-only allocation
over the payload 42. -/
def uniqueCountedHeap : Heap Nat := [⟨Storage.counted 1, 42, true, 0, 0⟩]

/-- A singleton heap holding one allocation shared by two handles
(`Counted(2)`), over the payload 7. -/
def sharedCountedHeap : Heap Nat := [⟨Storage.counted 2, 7, true, 0, 0⟩]

/-- A singleton heap holding one read-only allocation over the payload 9. -/
def readonlyHeap : Heap Nat := [⟨Storage.readonly, 9, true, 0, 0⟩]

/-!
Helper lemmas.
-/

theorem lt_length_of_getElem?_eq_some {α : Type} {l : List α} {i : Nat} {c : α}
    (hget : l[i]? = some c) : i < l.length := by
  by_contra hc
  rw [List.getElem?_eq_none (Nat.le_of_not_lt hc)] at hget
  exact Option.noConfusion hget

/-!
Claim theorems.
-/

/-- C8: the layout arithmetic is consistent: the alignment is
`max(align_of(T), align_of(Storage))`; the allocation size is
`size_of(T) + alignment`; the payload begins at `base + alignment`; and both
the cell address computed by `storage()` and the deallocation base computed by
`drop` recover exactly the base address `new` obtained from the allocator. -/
theorem C8_layout_consistent (sizeT alignT alignStorage base : Nat) :
    alloc_alignment alignT alignStorage = max alignT alignStorage ∧
    allocBytes sizeT alignT alignStorage = sizeT + alloc_alignment alignT alignStorage ∧
    contentsAddr base alignT alignStorage = base + alloc_alignment alignT alignStorage ∧
    storageAddr (contentsAddr base alignT alignStorage) alignT alignStorage = base ∧
    deallocAddr (contentsAddr base alignT alignStorage) alignT alignStorage = base := by
  refine ⟨rfl, rfl, rfl, ?_, ?_⟩ <;>
    simp [storageAddr, deallocAddr, contentsAddr]

/-- C7: `new(v)` followed by `deref` yields `v`; the fresh allocation carries a
`Counted(1)` cell; at the address level, construction requests
`size_of(T) + alignment` bytes, writes the `Counted(1)` cell at the allocator's
base address, places the payload at `base + alignment`, and fails fatally when
the allocator returns null. -/
theorem C7_new_correct {α : Type} (h : Heap α) (v : α)
    (sizeT alignT alignStorage base : Nat) :
    RocBox.deref (RocBox.new h v).2 (RocBox.new h v).1 = some v ∧
    (((RocBox.new h v).2)[(RocBox.new h v).1.contents]?).map (·.storage)
      = some (Storage.counted 1) ∧
    allocBytes sizeT alignT alignStorage = sizeT + alloc_alignment alignT alignStorage ∧
    newLayout alignT alignStorage (some base)
      = some (base, Storage.counted 1, contentsAddr base alignT alignStorage) ∧
    newLayout alignT alignStorage none = none := by
  refine ⟨?_, ?_, rfl, rfl, rfl⟩ <;>
    simp [RocBox.new, RocBox.deref, Storage.new_reference_counted,
      List.getElem?_concat_length]

/-- C9: constructing a box over `v` and immediately calling `into_inner`
returns `v` (the payload is read out before the handle is dropped). -/
theorem C9_new_into_inner {α : Type} (h : Heap α) (v : α) :
    (RocBox.into_inner (RocBox.new h v).2 (RocBox.new h v).1).1 = some v := by
  simp [RocBox.into_inner, RocBox.new, List.getElem?_concat_length]

/-- C2 (code bug): `into_inner` on a unique box returns the payload, but the
consumed handle is still dropped by Rust drop glue, so the count falls from 1
to 0, the payload destructor runs (on the already-moved-out value) and the
allocation is released — contradicting the claim that the call leaves the
lifetime bookkeeping untouched. -/
theorem C2_into_inner_drops_handle :
    RocBox.into_inner uniqueCountedHeap ⟨0⟩
      = (some 42, [⟨Storage.counted 1, 42, false, 1, 1⟩]) := by
  decide

/-- C1 counterexample: on a unique (`Counted(1)`), non-read-only box the claim
says cloning the wrapper shares the existing allocation at zero cost (same
handle, heap untouched); the code checks only read-only status and performs a
deep copy instead. -/
theorem C1_counterexample :
    ¬ ((SendSafeRocBox.clone uniqueCountedHeap ⟨⟨0⟩⟩).1 = ⟨⟨0⟩⟩ ∧
       (SendSafeRocBox.clone uniqueCountedHeap ⟨⟨0⟩⟩).2 = uniqueCountedHeap) := by
  decide

theorem clone_readonly {α : Type} {h : Heap α} {a : Nat} {cell : Allocation α}
    (hget : h[a]? = some cell) (hro : cell.storage = Storage.readonly) :
    RocBox.clone h ⟨a⟩ = (⟨a⟩, h) := by
  simp [RocBox.clone, hget, hro, Storage.is_readonly]

theorem clone_counted {α : Type} {h : Heap α} {a : Nat} {cell : Allocation α} {n : Nat}
    (hget : h[a]? = some cell) (hc : cell.storage = Storage.counted n) :
    RocBox.clone h ⟨a⟩
      = (⟨a⟩, h.set a { cell with storage := Storage.counted (n + 1) }) := by
  simp [RocBox.clone, hget, hc, Storage.is_readonly, Storage.increment_reference_count]

theorem drop_readonly {α : Type} {h : Heap α} {a : Nat} {cell : Allocation α}
    (hget : h[a]? = some cell) (hro : cell.storage = Storage.readonly) :
    RocBox.drop h ⟨a⟩ = h := by
  simp [RocBox.drop, hget, hro, Storage.decrease, Storage.is_readonly]

theorem drop_counted_ge_two {α : Type} {h : Heap α} {a : Nat} {cell : Allocation α}
    {n : Nat} (hget : h[a]? = some cell) (hc : cell.storage = Storage.counted (n + 2)) :
    RocBox.drop h ⟨a⟩ = h.set a { cell with storage := Storage.counted (n + 1) } := by
  simp [RocBox.drop, hget, hc, Storage.decrease, Storage.is_readonly]

theorem drop_counted_one {α : Type} {h : Heap α} {a : Nat} {cell : Allocation α}
    (hget : h[a]? = some cell) (hc : cell.storage = Storage.counted 1) :
    RocBox.drop h ⟨a⟩
      = h.set a { cell with live := false,
                            destructorRuns := cell.destructorRuns + 1,
                            deallocs := cell.deallocs + 1 } := by
  simp [RocBox.drop, hget, hc, Storage.decrease]

theorem drop_getElem?_ne {α : Type} (h : Heap α) (b : RocBox) (i : Nat)
    (hne : b.contents ≠ i) :
    (RocBox.drop h b)[i]? = h[i]? := by
  unfold RocBox.drop
  cases hg : h[b.contents]? with
  | none => rfl
  | some cell =>
    dsimp only
    split_ifs <;> first | rfl | exact List.getElem?_set_ne hne

/-- C1 (amended): cloning the thread-transfer wrapper re-checks the storage
cell at clone time, but decides by read-only status alone: a read-only box is
shared at zero cost (same handle, heap untouched); any counted box — including
a unique `Counted(1)` one — is deep-copied into a fresh allocation holding
`Counted(1)` over an equal payload. -/
theorem C1_clone_rule {α : Type} (h : Heap α) (a : Nat) (cell : Allocation α)
    (hget : h[a]? = some cell) :
    (cell.storage.is_readonly = true →
        SendSafeRocBox.clone h ⟨⟨a⟩⟩ = (⟨⟨a⟩⟩, h)) ∧
    (cell.storage.is_readonly = false →
        (SendSafeRocBox.clone h ⟨⟨a⟩⟩).1.box.contents = h.length ∧
        (SendSafeRocBox.clone h ⟨⟨a⟩⟩).2
          = h ++ [⟨Storage.counted 1, cell.payload, true, 0, 0⟩]) := by
  constructor
  · intro hro
    have hro' : cell.storage = Storage.readonly := by
      cases hs : cell.storage with
      | readonly => rfl
      | counted n => rw [hs] at hro; exact absurd hro (by simp [Storage.is_readonly])
    simp [SendSafeRocBox.clone, hget, hro, clone_readonly hget hro']
  · intro hro
    simp [SendSafeRocBox.clone, hget, hro, RocBox.deep_copy, RocBox.new,
      Storage.new_reference_counted]

/-- C1 amended-claim witness: at a concrete unique, counted box the wrapper
clone produces a fresh allocation rather than sharing. -/
theorem C1_clone_rule_witness :
    (SendSafeRocBox.clone uniqueCountedHeap ⟨⟨0⟩⟩).1.box.contents = 1 ∧
    (SendSafeRocBox.clone uniqueCountedHeap ⟨⟨0⟩⟩).2
      = uniqueCountedHeap ++ [⟨Storage.counted 1, 42, true, 0, 0⟩] :=
  (C1_clone_rule uniqueCountedHeap 0 ⟨Storage.counted 1, 42, true, 0, 0⟩ rfl).2 rfl

/-- C6: cloning a box reads the cell, increments a counted count by one while
leaving a read-only cell untouched, and returns a handle at the same payload
address; the clone dereferences to the same value as the original, and after
dropping one of the two handles the allocation is still live with its payload
intact. -/
theorem C6_clone_shares {α : Type} (h : Heap α) (a : Nat) (cell : Allocation α)
    (hget : h[a]? = some cell) (hlive : cell.live = true)
    (hwf : cell.storage = Storage.readonly ∨
           ∃ n, cell.storage = Storage.counted (n + 1)) :
    (RocBox.clone h ⟨a⟩).1.contents = a ∧
    (cell.storage.is_readonly = true → (RocBox.clone h ⟨a⟩).2 = h) ∧
    (∀ n, cell.storage = Storage.counted n →
        ((RocBox.clone h ⟨a⟩).2)[a]?
          = some { cell with storage := Storage.counted (n + 1) }) ∧
    RocBox.deref (RocBox.clone h ⟨a⟩).2 (RocBox.clone h ⟨a⟩).1
      = RocBox.deref (RocBox.clone h ⟨a⟩).2 ⟨a⟩ ∧
    RocBox.deref (RocBox.clone h ⟨a⟩).2 (RocBox.clone h ⟨a⟩).1 = some cell.payload ∧
    ((RocBox.drop (RocBox.clone h ⟨a⟩).2 ⟨a⟩)[a]?).map (fun c => (c.live, c.payload))
      = some (true, cell.payload) := by
  have ha : a < h.length := lt_length_of_getElem?_eq_some hget
  rcases hwf with hro | ⟨n, hc⟩
  · rw [clone_readonly hget hro]
    refine ⟨rfl, fun _ => rfl, ?_, rfl, ?_, ?_⟩
    · intro m hm
      rw [hro] at hm
      exact absurd hm (by simp)
    · simp [RocBox.deref, hget]
    · rw [drop_readonly hget hro]
      simp [hget, hlive]
  · rw [clone_counted hget hc]
    have hget2 : (h.set a { cell with storage := Storage.counted (n + 2) })[a]?
        = some { cell with storage := Storage.counted (n + 2) } :=
      List.getElem?_set_self ha
    refine ⟨rfl, ?_, ?_, rfl, ?_, ?_⟩
    · intro hro
      rw [hc] at hro
      exact absurd hro (by simp [Storage.is_readonly])
    · intro m hm
      rw [hc] at hm
      cases hm
      exact hget2
    · simp [RocBox.deref, hget2]
    · rw [drop_counted_ge_two hget2 rfl]
      have ha2 : a < (h.set a { cell with storage := Storage.counted (n + 2) }).length := by
        simpa using ha
      rw [List.getElem?_set_self ha2]
      simp [hlive]

/-- C6 witness: cloning a concrete unique counted box leaves a `Counted(2)`
cell at the same address. -/
theorem C6_clone_shares_witness :
    ((RocBox.clone uniqueCountedHeap ⟨0⟩).2)[0]?
      = some ⟨Storage.counted 2, 42, true, 0, 0⟩ :=
  (C6_clone_shares uniqueCountedHeap 0 ⟨Storage.counted 1, 42, true, 0, 0⟩ rfl rfl
      (Or.inr ⟨0, rfl⟩)).2.2.1 1 rfl

/-- C3: converting a plain box to the thread-transfer wrapper inspects the
cell: a read-only or unique box is wrapped unchanged (same payload address,
heap untouched) and converting back returns the very same handle over the
untouched heap; a shared non-read-only box is deep-copied, the wrapper holds a
handle at a fresh address different from the original, and the fresh allocation
carries `Counted(1)` over a payload equal to the original. -/
theorem C3_transfer_conversion {α : Type} (h : Heap α) (a : Nat)
    (cell : Allocation α) (hget : h[a]? = some cell) :
    ((cell.storage.is_readonly || cell.storage.is_unique) = true →
        sendSafeRocBoxFromRocBox h ⟨a⟩ = (⟨⟨a⟩⟩, h) ∧
        rocBoxFromSendSafe (sendSafeRocBoxFromRocBox h ⟨a⟩).2
            (sendSafeRocBoxFromRocBox h ⟨a⟩).1 = (⟨a⟩, h)) ∧
    ((cell.storage.is_readonly || cell.storage.is_unique) = false →
        (sendSafeRocBoxFromRocBox h ⟨a⟩).1.box.contents = h.length ∧
        a ≠ h.length ∧
        (((sendSafeRocBoxFromRocBox h ⟨a⟩).2)[h.length]?).map
            (fun c => (c.storage, c.payload))
          = some (Storage.counted 1, cell.payload)) := by
  have ha : a < h.length := lt_length_of_getElem?_eq_some hget
  constructor
  · intro hsafe
    constructor
    · simp [sendSafeRocBoxFromRocBox, hget, hsafe]
    · simp [sendSafeRocBoxFromRocBox, hget, hsafe, rocBoxFromSendSafe]
  · intro hsafe
    have hres : sendSafeRocBoxFromRocBox h ⟨a⟩
        = (⟨⟨h.length⟩⟩,
           RocBox.drop (h ++ [⟨Storage.counted 1, cell.payload, true, 0, 0⟩]) ⟨a⟩) := by
      simp [sendSafeRocBoxFromRocBox, hget, hsafe, RocBox.deep_copy, RocBox.new,
        Storage.new_reference_counted]
    rw [hres]
    refine ⟨rfl, Nat.ne_of_lt ha, ?_⟩
    rw [drop_getElem?_ne _ _ _ (Nat.ne_of_lt ha)]
    rw [List.getElem?_append_right (Nat.le_refl _)]
    simp

/-- C3 witness: a concrete unique box transfers at zero cost and converts back
to the same handle over the untouched heap. -/
theorem C3_transfer_conversion_witness :
    sendSafeRocBoxFromRocBox uniqueCountedHeap ⟨0⟩ = (⟨⟨0⟩⟩, uniqueCountedHeap) ∧
    rocBoxFromSendSafe (sendSafeRocBoxFromRocBox uniqueCountedHeap ⟨0⟩).2
      (sendSafeRocBoxFromRocBox uniqueCountedHeap ⟨0⟩).1 = (⟨0⟩, uniqueCountedHeap) :=
  (C3_transfer_conversion uniqueCountedHeap 0 ⟨Storage.counted 1, 42, true, 0, 0⟩
      rfl).1 rfl

/-- C10: converting a shared (`Counted(n)`, `n ≥ 2`), non-read-only box into
the thread-transfer wrapper leaves the original allocation at `Counted(n-1)`:
the consumed handle is dropped after the deep copy, so the count drops by one
while the allocation stays live with payload and release count unchanged. -/
theorem C10_from_shared_decrements {α : Type} (h : Heap α) (a n : Nat)
    (cell : Allocation α) (hget : h[a]? = some cell)
    (hc : cell.storage = Storage.counted n) (hn : 2 ≤ n) (hlive : cell.live = true) :
    ((sendSafeRocBoxFromRocBox h ⟨a⟩).2)[a]?
      = some { cell with storage := Storage.counted (n - 1) } ∧
    Allocation.live { cell with storage := Storage.counted (n - 1) } = true ∧
    Allocation.payload { cell with storage := Storage.counted (n - 1) } = cell.payload ∧
    Allocation.deallocs { cell with storage := Storage.counted (n - 1) } = cell.deallocs := by
  have ha : a < h.length := lt_length_of_getElem?_eq_some hget
  obtain ⟨m, rfl⟩ : ∃ m, n = m + 2 := ⟨n - 2, by omega⟩
  have hsafe : (cell.storage.is_readonly || cell.storage.is_unique) = false := by
    simp [hc, Storage.is_readonly, Storage.is_unique]
  have hget2 : (h ++ [⟨Storage.counted 1, cell.payload, true, 0, 0⟩])[a]? = some cell := by
    rw [List.getElem?_append_left ha]; exact hget
  have hres : sendSafeRocBoxFromRocBox h ⟨a⟩
      = (⟨⟨h.length⟩⟩,
         RocBox.drop (h ++ [⟨Storage.counted 1, cell.payload, true, 0, 0⟩]) ⟨a⟩) := by
    simp [sendSafeRocBoxFromRocBox, hget, hsafe, RocBox.deep_copy, RocBox.new,
      Storage.new_reference_counted]
  rw [hres]
  refine ⟨?_, hlive, rfl, rfl⟩
  rw [drop_counted_ge_two hget2 hc]
  have ha2 : a <
      (h ++ [(⟨Storage.counted 1, cell.payload, true, 0, 0⟩ : Allocation α)]).length := by
    simp; omega
  rw [List.getElem?_set_self ha2]
  simp

/-- C10 witness: converting a concrete `Counted(2)` box leaves the original
allocation live at `Counted(1)`. -/
theorem C10_from_shared_decrements_witness :
    ((sendSafeRocBoxFromRocBox sharedCountedHeap ⟨0⟩).2)[0]?
      = some ⟨Storage.counted 1, 7, true, 0, 0⟩ :=
  (C10_from_shared_decrements sharedCountedHeap 0 2 ⟨Storage.counted 2, 7, true, 0, 0⟩
      rfl rfl (by decide) rfl).1

theorem cloneN_counted_singleton {α : Type} (v : α) (d f n k : Nat) :
    cloneN ([⟨Storage.counted (k + 1), v, true, d, f⟩] : Heap α) ⟨0⟩ n
      = [⟨Storage.counted (k + 1 + n), v, true, d, f⟩] := by
  induction n generalizing k with
  | zero => rfl
  | succ n ih =>
    have hstep :
        (RocBox.clone ([⟨Storage.counted (k + 1), v, true, d, f⟩] : Heap α) ⟨0⟩).2
          = [⟨Storage.counted (k + 2), v, true, d, f⟩] := by
      rw [@clone_counted α _ 0 ⟨Storage.counted (k + 1), v, true, d, f⟩ _ rfl rfl]
      rfl
    simp only [cloneN]
    rw [hstep, ih (k + 1), show k + 1 + (n + 1) = k + 1 + 1 + n from by omega]

theorem dropN_counted_singleton {α : Type} (v : α) (d f : Nat) (j k : Nat)
    (hjk : j ≤ k) :
    dropN ([⟨Storage.counted (k + 1), v, true, d, f⟩] : Heap α) ⟨0⟩ j
      = [⟨Storage.counted (k + 1 - j), v, true, d, f⟩] := by
  induction j generalizing k with
  | zero => rfl
  | succ j ih =>
    obtain ⟨m, rfl⟩ : ∃ m, k = m + 1 := ⟨k - 1, by omega⟩
    have hstep :
        RocBox.drop ([⟨Storage.counted (m + 2), v, true, d, f⟩] : Heap α) ⟨0⟩
          = [⟨Storage.counted (m + 1), v, true, d, f⟩] := by
      rw [@drop_counted_ge_two α _ 0 ⟨Storage.counted (m + 2), v, true, d, f⟩ _ rfl rfl]
      rfl
    simp only [dropN]
    rw [hstep, ih m (by omega), show m + 1 + 1 - (j + 1) = m + 1 - j from by omega]

theorem dropN_add {α : Type} (b : RocBox) (i j : Nat) :
    ∀ h : Heap α, dropN h b (i + j) = dropN (dropN h b i) b j := by
  induction i with
  | zero => intro h; rw [Nat.zero_add]; rfl
  | succ i ih =>
    intro h
    rw [show i + 1 + j = (i + j) + 1 from by omega]
    simp only [dropN]
    exact ih (RocBox.drop h b)

/-- C4: starting from a freshly constructed counted box over `v`, `n` clones
leave the storage cell at `Counted(n+1)`; the first `k ≤ n` of the `n+1` drops
only write the decremented count back (`Counted(n+1-k)`, allocation live, no
destructor run, no release); the final drop — the one taking the count from 1
to 0 — runs the payload destructor exactly once and releases the allocation
exactly once.  All `n+1` handles carry the same address, so every drop order is
this same sequence. -/
theorem C4_refcount_lifecycle {α : Type} (v : α) (n : Nat) :
    cloneN (RocBox.new ([] : Heap α) v).2 ⟨0⟩ n
      = [⟨Storage.counted (n + 1), v, true, 0, 0⟩] ∧
    (∀ k, k ≤ n →
        dropN (cloneN (RocBox.new ([] : Heap α) v).2 ⟨0⟩ n) ⟨0⟩ k
          = [⟨Storage.counted (n + 1 - k), v, true, 0, 0⟩]) ∧
    dropN (cloneN (RocBox.new ([] : Heap α) v).2 ⟨0⟩ n) ⟨0⟩ (n + 1)
      = [⟨Storage.counted 1, v, false, 1, 1⟩] := by
  have hclones : cloneN (RocBox.new ([] : Heap α) v).2 ⟨0⟩ n
      = [⟨Storage.counted (n + 1), v, true, 0, 0⟩] := by
    have := cloneN_counted_singleton v 0 0 n 0
    rw [show 0 + 1 + n = n + 1 from by omega] at this
    exact this
  refine ⟨hclones, ?_, ?_⟩
  · intro k hk
    rw [hclones]
    exact dropN_counted_singleton v 0 0 k n hk
  · rw [hclones, dropN_add ⟨0⟩ n 1, dropN_counted_singleton v 0 0 n n (Nat.le_refl n),
      show n + 1 - n = 1 from by omega]
    simp only [dropN]
    rw [@drop_counted_one α _ 0 ⟨Storage.counted 1, v, true, 0, 0⟩ rfl rfl]
    rfl

/-- C4 witness: two clones of a fresh box over 42 give `Counted(3)`, and one
drop brings it back to `Counted(2)` with no destructor run and no release. -/
theorem C4_refcount_lifecycle_witness :
    dropN (cloneN (RocBox.new ([] : Heap Nat) 42).2 ⟨0⟩ 2) ⟨0⟩ 1
      = [⟨Storage.counted 2, 42, true, 0, 0⟩] :=
  (C4_refcount_lifecycle 42 2).2.1 1 (by omega)

/-- C5: on a read-only box, every interleaving of clone and drop operations
leaves the heap — in particular the storage cell, the liveness flag, the
destructor-run counter and the release counter — completely unchanged. -/
theorem C5_readonly_frame {α : Type} (h : Heap α) (a : Nat) (cell : Allocation α)
    (hget : h[a]? = some cell) (hro : cell.storage = Storage.readonly)
    (ops : List BoxOp) :
    applyOps h ⟨a⟩ ops = h ∧
    ((applyOps h ⟨a⟩ ops)[a]?).map
        (fun c => (c.storage, c.live, c.destructorRuns, c.deallocs))
      = some (Storage.readonly, cell.live, cell.destructorRuns, cell.deallocs) := by
  have hfix : applyOps h ⟨a⟩ ops = h := by
    induction ops with
    | nil => rfl
    | cons op rest ih =>
      cases op with
      | cloneOp =>
        simp only [applyOps]
        rw [clone_readonly hget hro]
        exact ih
      | dropOp =>
        simp only [applyOps]
        rw [drop_readonly hget hro]
        exact ih
  refine ⟨hfix, ?_⟩
  rw [hfix]
  simp [hget, hro]

/-- C5 witness: a concrete clone/drop/drop/clone sequence on a read-only box
leaves the concrete heap untouched. -/
theorem C5_readonly_frame_witness :
    applyOps readonlyHeap ⟨0⟩ [BoxOp.cloneOp, BoxOp.dropOp, BoxOp.dropOp, BoxOp.cloneOp]
      = readonlyHeap :=
  (C5_readonly_frame readonlyHeap 0 ⟨Storage.readonly, 9, true, 0, 0⟩ rfl rfl
      [BoxOp.cloneOp, BoxOp.dropOp, BoxOp.dropOp, BoxOp.cloneOp]).1
